import Mathlib

/-!
Verification development for the sproxy2 proxy engine.

Shallow embedding of the proxy engine of this repository:
byte streams are `List Nat` (each element one byte, values < 256), the
bytes a handler writes are collected into lists, Python strings are
`String`, exceptions become `Option`/explicit outcome flags.  Each
definition is translated from the corresponding Python function in
`src/core/services/...`; comments cite the source function.
-/

namespace Sproxy2

/-- ASCII bytes of a string (the handlers only write ASCII literals and
`str.encode()` of ASCII text). -/
def strBytes (s : String) : List Nat := s.toList.map Char.toNat

namespace Socks5Proxy

/-- Result of `Socks5Proxy._handshake`: the returned boolean, the bytes
written to the client, and the unread remainder of the client stream.
On an exception path (truncated input) `rest` is `[]`; the caller closes
the connection so the remainder is never read. -/
structure HsResult where
  ok : Bool
  written : List Nat
  rest : List Nat
deriving DecidableEq, Repr

/-- `Socks5Proxy._handshake` (socks5_proxy.py).  Reads two bytes
(version, nmethods), then `nmethods` method bytes.  `readexactly` on a
stream with too few bytes raises, which the function catches and turns
into `False` with nothing written. -/
def handshake : List Nat → HsResult
  | v :: n :: rest =>
    if v ≠ 5 then ⟨false, [], rest⟩
    else if rest.length < n then ⟨false, [], []⟩  -- IncompleteReadError, caught
    else if 0 ∈ rest.take n then ⟨true, [5, 0x00], rest.drop n⟩
    else ⟨false, [5, 0xFF], rest.drop n⟩
  | _ => ⟨false, [], []⟩  -- fewer than 2 bytes before EOF: readexactly raises, caught

/-- UTF-8 continuation byte (0x80–0xBF). -/
def isCont (b : Nat) : Bool := decide (0x80 ≤ b ∧ b ≤ 0xBF)

/-- Strict UTF-8 decoding of a byte list, mirroring CPython's
`bytes.decode('utf-8')`: rejects truncated sequences, stray continuation
bytes, overlong encodings, surrogate code points and values above
U+10FFFF.  `none` models the `UnicodeDecodeError` path. -/
def utf8Decode : List Nat → Option (List Char)
  | [] => some []
  | b :: bs =>
    if b ≤ 0x7F then
      (utf8Decode bs).map (fun cs => Char.ofNat b :: cs)
    else if 0xC2 ≤ b ∧ b ≤ 0xDF then
      match bs with
      | b2 :: bs2 =>
        if isCont b2 then
          (utf8Decode bs2).map (fun cs => Char.ofNat ((b - 0xC0) * 0x40 + (b2 - 0x80)) :: cs)
        else none
      | [] => none
    else if 0xE0 ≤ b ∧ b ≤ 0xEF then
      match bs with
      | b2 :: b3 :: bs3 =>
        if ((if b = 0xE0 then 0xA0 else 0x80) ≤ b2 ∧ b2 ≤ (if b = 0xED then 0x9F else 0xBF))
            ∧ isCont b3 then
          (utf8Decode bs3).map (fun cs =>
            Char.ofNat ((b - 0xE0) * 0x1000 + (b2 - 0x80) * 0x40 + (b3 - 0x80)) :: cs)
        else none
      | _ => none
    else if 0xF0 ≤ b ∧ b ≤ 0xF4 then
      match bs with
      | b2 :: b3 :: b4 :: bs4 =>
        if ((if b = 0xF0 then 0x90 else 0x80) ≤ b2 ∧ b2 ≤ (if b = 0xF4 then 0x8F else 0xBF))
            ∧ isCont b3 ∧ isCont b4 then
          (utf8Decode bs4).map (fun cs =>
            Char.ofNat ((b - 0xF0) * 0x40000 + (b2 - 0x80) * 0x1000
              + (b3 - 0x80) * 0x40 + (b4 - 0x80)) :: cs)
        else none
      | _ => none
    else none

/-- `'.'.join(str(b) for b in addr_data)`: dotted-decimal IPv4 text. -/
def ipv4String (bs : List Nat) : String :=
  String.intercalate "." (bs.map (fun b => toString b))

/-- Python `f"{b:02x}"`: lowercase hex, left-padded with `0` to width 2. -/
def pyHex02 (b : Nat) : String :=
  let s := Nat.toDigits 16 b
  String.mk (List.replicate (2 - s.length) '0' ++ s)

/-- The generator `f"{a[i]:02x}{a[i+1]:02x}" for i in range(0, 16, 2)`:
consecutive byte pairs rendered as 4-hex-digit words. -/
def ipv6Groups : List Nat → List String
  | b1 :: b2 :: rest => (pyHex02 b1 ++ pyHex02 b2) :: ipv6Groups rest
  | _ => []

/-- `':'.join(...)` over the pairwise hex groups (IPv6 text). -/
def ipv6String (addr : List Nat) : String :=
  String.intercalate ":" (ipv6Groups addr)

/-- Reply `b'\x05\x07\x00\x01\x00\x00\x00\x00\x00\x00'` (command not supported). -/
def replyCmdUnsupported : List Nat := [5, 7, 0, 1, 0, 0, 0, 0, 0, 0]

/-- Reply `b'\x05\x08\x00\x01\x00\x00\x00\x00\x00\x00'` (address type not supported). -/
def replyAtypUnsupported : List Nat := [5, 8, 0, 1, 0, 0, 0, 0, 0, 0]

/-- Result of `Socks5Proxy._parse_request`: the optional `(host, port)`
target, the bytes written to the client, and the unread remainder of the
stream (`[]` on exception paths, where the connection is closed). -/
structure ReqResult where
  target : Option (String × Nat)
  written : List Nat
  rest : List Nat
deriving DecidableEq, Repr

/-- `Socks5Proxy._parse_request` (socks5_proxy.py).  Reads 4 header bytes
(version, command, reserved, address type), then the address by type, then
a big-endian 2-byte port.  Truncated reads and undecodable domain bytes
raise, which the function catches and turns into `None` with nothing
further written. -/
def parse_request : List Nat → ReqResult
  | v :: cmd :: _rsv :: atyp :: rest =>
    if v ≠ 5 then ⟨none, [], rest⟩
    else if cmd ≠ 1 then ⟨none, replyCmdUnsupported, rest⟩
    else if atyp = 1 then
      match rest with
      | a :: b :: c :: d :: p1 :: p2 :: r =>
        ⟨some (ipv4String [a, b, c, d], p1 * 256 + p2), [], r⟩
      | _ => ⟨none, [], []⟩
    else if atyp = 3 then
      match rest with
      | len :: r1 =>
        if len ≤ r1.length then
          match utf8Decode (r1.take len) with
          | some cs =>
            match r1.drop len with
            | p1 :: p2 :: r => ⟨some (String.mk cs, p1 * 256 + p2), [], r⟩
            | _ => ⟨none, [], []⟩
          | none => ⟨none, [], []⟩
        else ⟨none, [], []⟩
      | [] => ⟨none, [], []⟩
    else if atyp = 4 then
      if 16 ≤ rest.length then
        match rest.drop 16 with
        | p1 :: p2 :: r => ⟨some (ipv6String (rest.take 16), p1 * 256 + p2), [], r⟩
        | _ => ⟨none, [], []⟩
      else ⟨none, [], []⟩
    else ⟨none, replyAtypUnsupported, rest⟩
  | _ => ⟨none, [], []⟩

/-- Result of one character-list substring test, Python's `needle in msg`. -/
def hasSubstr (hay needle : List Char) : Bool :=
  if needle.isPrefixOf hay then true
  else match hay with
    | [] => false
    | _ :: t => hasSubstr t needle

/-- Python `needle in msg` on strings. -/
def strContains (m needle : String) : Bool := hasSubstr m.toList needle.toList

/-- The failure classes distinguished by `_run_ssh_tunnel`'s startup probe
(each class is a distinct logged diagnostic). -/
inductive SshErrClass where
  | auth
  | refused
  | unreachable
  | generic
deriving DecidableEq, Repr

/-- Stderr classification in `Socks5Proxy._run_ssh_tunnel` (socks5_proxy.py,
startup probe): an `if/elif` cascade of substring tests on the decoded
stderr text. -/
def classifySshError (m : String) : SshErrClass :=
  if strContains m "Permission denied" || strContains m "publickey" then .auth
  else if strContains m "Connection refused" then .refused
  else if strContains m "No route to host" || strContains m "Connection timed out" then
    .unreachable
  else .generic

/-- One tick of the startup probe: if the SSH child process has exited,
its stderr is classified (choosing the logged diagnostic) and
`RuntimeError(f"SSH connection failed: {error_msg}")` is raised
immediately rather than continuing; otherwise the probe goes on. -/
def probeTick (exited : Bool) (stderrText : String) :
    Except (SshErrClass × String) Unit :=
  if exited then
    .error (classifySshError stderrText, "SSH connection failed: " ++ stderrText)
  else .ok ()

end Socks5Proxy

namespace Relay

/-- One event observed by a copy loop at its next `await`: a chunk returned
by `reader.read(8192)` (`[]` is EOF), a delivered `asyncio.CancelledError`,
or an I/O error raised by the read or the write. -/
inductive ReadEv where
  | chunk : List Nat → ReadEv
  | cancelled : ReadEv
  | ioError : ReadEv
deriving DecidableEq, Repr

/-- Outcome of one directional copy loop: the bytes it wrote to the peer,
whether its `finally` block closed the peer's write side, and whether an
exception escaped the loop. -/
structure ForwardResult where
  written : List Nat
  writerClosed : Bool
  raised : Bool
deriving DecidableEq, Repr

/-- The inner `forward(reader, writer)` of `_relay_data`, which is textually
identical in `Socks5Proxy` and `HttpProxy`.  The `try` body loops
`data = await reader.read(8192); if not data: break; writer.write(data);
await writer.drain()`.  The bare `except:` catches every exception —
including `asyncio.CancelledError`, which is a `BaseException` — and the
`finally:` closes the writer, swallowing close errors.  After the listed
events the stream is at EOF. -/
def forward : List ReadEv → ForwardResult
  | [] => ⟨[], true, false⟩
  | .chunk [] :: _ => ⟨[], true, false⟩
  | .chunk c :: evs =>
    let r := forward evs
    ⟨c ++ r.written, r.writerClosed, r.raised⟩
  | .cancelled :: _ => ⟨[], true, false⟩
  | .ioError :: _ => ⟨[], true, false⟩

/-- `_relay_data`: the two directional copy loops, gathered with
`return_exceptions=True`; each direction is independent. -/
def relay_data (abEvents baEvents : List ReadEv) : ForwardResult × ForwardResult :=
  (forward abEvents, forward baEvents)

/-- `chunks` is a way the stream can deliver `payload` to `read(8192)`:
nonempty chunks of at most 8192 bytes whose concatenation is `payload`. -/
def ChunkedAs (payload : List Nat) (chunks : List (List Nat)) : Prop :=
  chunks.flatten = payload ∧ ∀ c ∈ chunks, c ≠ [] ∧ c.length ≤ 8192

end Relay

namespace ProxyBase

/-- Status of `self._task` (only what the claims observe: whether it was
cancelled by `stop`). -/
inductive TaskSt where
  | running
  | cancelledDone
deriving DecidableEq, Repr

/-- The mutable fields of `ProxyBase` (proxy.py): the `is_running` flag,
whether `self._stop_event` is set, and the run-loop task handle. -/
structure ProxyState where
  is_running : Bool
  stop_event : Bool
  task : Option TaskSt
deriving DecidableEq, Repr

/-- `ProxyBase.start`: early return when `is_running`; otherwise clear the
stop event, create the run-loop task, set `is_running`. -/
def start (s : ProxyState) : ProxyState :=
  if s.is_running then s
  else { is_running := true, stop_event := false, task := some .running }

/-- `ProxyBase.stop`: early return when not `is_running`; otherwise set the
stop event, cancel the task if any and await it with `CancelledError`
caught (a clean exit), then clear `is_running`. -/
def stop (s : ProxyState) : ProxyState :=
  if s.is_running then
    { is_running := false, stop_event := true,
      task := s.task.map (fun _ => TaskSt.cancelledDone) }
  else s

/-- How one execution of `self.run()` ends. -/
inductive RunOutcome where
  | normal
  | cancelled
  | failed (msg : String)
deriving DecidableEq, Repr

/-- Result of `_run_with_monitoring`: the instance state afterwards, the
events it logged, and whether an exception escaped the wrapper. -/
structure MonitorResult where
  state : ProxyState
  logs : List String
  propagated : Bool
deriving DecidableEq, Repr

/-- `ProxyBase._run_with_monitoring` (proxy.py): `try: await self.run()`
with `except CancelledError` logged, `except Exception as e` logged and
`is_running` cleared, and a `finally` clearing `is_running` on every path.
No exception leaves the wrapper. -/
def run_with_monitoring (s : ProxyState) (o : RunOutcome) : MonitorResult :=
  match o with
  | .normal => ⟨{ s with is_running := false }, [], false⟩
  | .cancelled => ⟨{ s with is_running := false }, ["Proxy task was cancelled"], false⟩
  | .failed m => ⟨{ s with is_running := false }, ["Proxy task failed: " ++ m], false⟩

end ProxyBase

namespace HttpProxy

/-- Python `str.split(c, 1)` when `c` occurs: the parts before and after
the first occurrence; `none` when `c` does not occur. -/
def splitAtFirst (c : Char) : List Char → Option (List Char × List Char)
  | [] => none
  | x :: xs =>
    if x = c then some ([], xs)
    else (splitAtFirst c xs).map (fun p => (x :: p.1, p.2))

/-- Python `str.rsplit(c, 1)` when `c` occurs: the parts before and after
the last occurrence; `none` when `c` does not occur. -/
def splitAtLast (c : Char) : List Char → Option (List Char × List Char)
  | [] => none
  | x :: xs =>
    match splitAtLast c xs with
    | some p => some (x :: p.1, p.2)
    | none => if x = c then some ([], xs) else none

/-- Python `int()` on the digit strings ports take (`int()` additionally
accepts surrounding whitespace, a sign and `_` separators, which cannot
reach the port position of a well-formed `host:port` target); `none`
models `ValueError`. -/
def pyNat? (cs : List Char) : Option Nat :=
  if cs ≠ [] ∧ cs.all (fun ch => ch.isDigit) then
    some (cs.foldl (fun n ch => n * 10 + (ch.toNat - 48)) 0)
  else none

/-- Target parsing in `HttpProxy._handle_connect` (http_proxy.py):
`host, port_str = target.rsplit(':', 1); port = int(port_str)` when the
target contains a colon, else port 443. -/
def connectTarget (target : String) : Option (String × Nat) :=
  match splitAtLast ':' target.toList with
  | some p => (pyNat? p.2).map (fun port => (String.mk p.1, port))
  | none => some (target, 443)

/-- Result of `_handle_connect`: the bytes written back to the client and
whether both streams were handed to `_relay_data`. -/
structure ConnectResult where
  clientOut : List Nat
  relayed : Bool
deriving DecidableEq, Repr

/-- `HttpProxy._handle_connect` (http_proxy.py), with the
`asyncio.open_connection` outcome supplied as the oracle `connectOk`.
`int()` raising on a malformed port is caught by the outer handler with
nothing written. -/
def handle_connect (target : String) (connectOk : String → Nat → Bool) : ConnectResult :=
  match connectTarget target with
  | none => ⟨[], false⟩
  | some (host, port) =>
    if connectOk host port then
      ⟨strBytes "HTTP/1.1 200 Connection Established\r\n\r\n", true⟩
    else
      ⟨strBytes "HTTP/1.1 502 Bad Gateway\r\n\r\n", false⟩

/-- Target parsing in `HttpProxy._handle_http`: strip a leading `http://`,
split `host[:port]` (port 80 when absent) from the path (default `/`);
`none` models `int()` raising on a malformed port. -/
def parseHttpTarget (target : String) : Option (String × Nat × String) :=
  let t := if "http://".toList.isPrefixOf target.toList
    then target.toList.drop 7 else target.toList
  let hp := match splitAtFirst '/' t with
    | some p => (p.1, '/' :: p.2)
    | none => (t, ['/'])
  match splitAtLast ':' hp.1 with
  | some p => (pyNat? p.2).map (fun port => (String.mk p.1, port, String.mk hp.2))
  | none => some (String.mk hp.1, 80, String.mk hp.2)

/-- ASCII lowering, Python `str.lower()` (header names are ASCII). -/
def lowerAscii (s : String) : String := String.mk (s.toList.map Char.toLower)

/-- Request re-serialization in `_handle_http`:
`f"{method} {path} HTTP/1.1\r\n"`, then `f"Host: {host}\r\n"`, then every
collected client header whose lowered name is not `proxy-connection`, then
a blank line. -/
def serializeHttpRequest (method path host : String)
    (headers : List (String × String)) : String :=
  method ++ " " ++ path ++ " HTTP/1.1\r\n"
    ++ "Host: " ++ host ++ "\r\n"
    ++ String.join ((headers.filter (fun kv => lowerAscii kv.1 ≠ "proxy-connection")).map
        (fun kv => kv.1 ++ ": " ++ kv.2 ++ "\r\n"))
    ++ "\r\n"

/-- The response pump of `_handle_http`: `remote_reader.read(8192)` until an
empty read, each chunk written to the client. -/
def pumpChunks : List (List Nat) → List Nat
  | [] => []
  | c :: cs => if c = [] then [] else c ++ pumpChunks cs

/-- Result of `_handle_http`: bytes sent to the upstream, bytes sent back
to the client, and whether the upstream writer was closed at the end. -/
structure HttpResult where
  upstreamOut : List Nat
  clientOut : List Nat
  upstreamClosed : Bool
deriving DecidableEq, Repr

/-- `HttpProxy._handle_http` (http_proxy.py), with the upstream connect
outcome and the upstream's response chunks supplied as oracles.  The
client's collected headers arrive as an insertion-ordered association
list (the Python `dict`). -/
def handle_http (method target : String) (headers : List (String × String))
    (connectOk : String → Nat → Bool) (responseChunks : List (List Nat)) : HttpResult :=
  match parseHttpTarget target with
  | none => ⟨[], [], false⟩
  | some (host, port, path) =>
    if connectOk host port then
      ⟨strBytes (serializeHttpRequest method path host headers),
       pumpChunks responseChunks, true⟩
    else
      ⟨[], strBytes "HTTP/1.1 502 Bad Gateway\r\n\r\n", false⟩

end HttpProxy

namespace ProxyRunnerService

/-- Observable steps `start_proxy` performs, in order: the map insertion
and the cross-thread scheduling of the proxy's `start()` coroutine. -/
inductive Action where
  | insert (name : String)
  | schedule (name : String)
deriving DecidableEq, Repr

/-- `ProxyRunnerService._running_proxies`: an insertion-ordered map from
name to proxy instance, each instance abstracted to its own `is_running`
flag (the only instance field the claims observe). -/
structure Registry where
  entries : List (String × Bool)
deriving DecidableEq, Repr

/-- `name in self._running_proxies`. -/
def containsName (r : Registry) (name : String) : Bool :=
  r.entries.any (fun e => e.1 = name)

/-- `ProxyRunnerService.is_proxy_running`: membership in the map, nothing
else. -/
def is_proxy_running (r : Registry) (name : String) : Bool := containsName r name

/-- `ProxyRunnerService.start_proxy`.  `ok` abstracts whether
`create_proxy`/`run_coroutine_threadsafe` raise; the `except` block
deletes any inserted entry and re-raises, so on a raise the map is
unchanged.  Returns the new registry, the ordered actions performed, and
whether the call raised.  A name already present returns early with a
warning and no mutation. -/
def start_proxy (r : Registry) (name : String) (ok : Bool) :
    Registry × List Action × Bool :=
  if containsName r name then (r, [], false)
  else if ok then
    (⟨r.entries ++ [(name, true)]⟩, [Action.insert name, Action.schedule name], false)
  else (r, [], true)

/-- `ProxyRunnerService.stop_proxy`: delete the entry (no-op with a warning
when absent). -/
def stop_proxy (r : Registry) (name : String) : Registry :=
  ⟨r.entries.filter (fun e => e.1 ≠ name)⟩

/-- The run-loop of instance `name` fails or exits:
`_run_with_monitoring` clears that instance's own `is_running` flag; the
registry map itself is untouched. -/
def inst_exit (r : Registry) (name : String) : Registry :=
  ⟨r.entries.map (fun e => if e.1 = name then (e.1, false) else e)⟩

/-- The operations that can touch the registry or an instance flag. -/
inductive RegEvent where
  | startP (name : String) (ok : Bool)
  | stopP (name : String)
  | instExit (name : String)
deriving DecidableEq, Repr

def applyEvent (r : Registry) : RegEvent → Registry
  | .startP n ok => (start_proxy r n ok).1
  | .stopP n => stop_proxy r n
  | .instExit n => inst_exit r n

def runEvents (r : Registry) (evs : List RegEvent) : Registry :=
  evs.foldl applyEvent r

end ProxyRunnerService

end Sproxy2

open Sproxy2 Sproxy2.Socks5Proxy

/-- C1: a SOCKS5 greeting with version byte 5 whose advertised method list
contains 0x00 makes the handshake write exactly `05 00` and return success;
a version-5 greeting whose method list omits 0x00 makes it write exactly
`05 FF` and return failure, reading nothing past the method list; a greeting
whose version byte is not 5 fails with no reply written. -/
theorem socks5_handshake_correct :
    (∀ methods rest : List Nat, 0 ∈ methods →
      handshake (5 :: methods.length :: (methods ++ rest)) = ⟨true, [5, 0x00], rest⟩) ∧
    (∀ methods rest : List Nat, 0 ∉ methods →
      handshake (5 :: methods.length :: (methods ++ rest)) = ⟨false, [5, 0xFF], rest⟩) ∧
    (∀ v n : Nat, ∀ rest : List Nat, v ≠ 5 →
      handshake (v :: n :: rest) = ⟨false, [], rest⟩) := by
  refine ⟨?_, ?_, ?_⟩
  · intro methods rest h
    simp [handshake, Nat.not_lt.2 (List.length_append methods rest ▸ Nat.le_add_right _ _),
      List.take_left, List.drop_left, h]
  · intro methods rest h
    simp [handshake, Nat.not_lt.2 (List.length_append methods rest ▸ Nat.le_add_right _ _),
      List.take_left, List.drop_left, h]
  · intro v n rest h
    simp [handshake, h]

/-- C2: for a version-5 SOCKS5 request, a command byte other than 1 makes the
parser write exactly `05 07 00 01 00 00 00 00 00 00` with no target; address
type 1 yields the dotted-decimal text of the next 4 bytes, address type 3 the
UTF-8 decoding of the length-prefixed name, address type 4 the 16 bytes as
eight colon-separated 2-byte hex words, and any other address type writes
`05 08 00 01 00 00 00 00 00 00` with no target; the port is the following two
bytes read big-endian. -/
theorem socks5_parse_request_correct :
    (∀ cmd rsv atyp : Nat, ∀ rest : List Nat, cmd ≠ 1 →
      parse_request (5 :: cmd :: rsv :: atyp :: rest) = ⟨none, replyCmdUnsupported, rest⟩) ∧
    (∀ rsv a b c d p1 p2 : Nat, ∀ r : List Nat,
      parse_request (5 :: 1 :: rsv :: 1 :: a :: b :: c :: d :: p1 :: p2 :: r) =
        ⟨some (ipv4String [a, b, c, d], p1 * 256 + p2), [], r⟩) ∧
    (∀ rsv p1 p2 : Nat, ∀ name r : List Nat, ∀ cs : List Char,
      utf8Decode name = some cs →
      parse_request (5 :: 1 :: rsv :: 3 :: name.length :: (name ++ p1 :: p2 :: r)) =
        ⟨some (String.mk cs, p1 * 256 + p2), [], r⟩) ∧
    (∀ rsv p1 p2 : Nat, ∀ addr r : List Nat, addr.length = 16 →
      parse_request (5 :: 1 :: rsv :: 4 :: (addr ++ p1 :: p2 :: r)) =
        ⟨some (ipv6String addr, p1 * 256 + p2), [], r⟩) ∧
    (∀ rsv atyp : Nat, ∀ rest : List Nat, atyp ≠ 1 → atyp ≠ 3 → atyp ≠ 4 →
      parse_request (5 :: 1 :: rsv :: atyp :: rest) = ⟨none, replyAtypUnsupported, rest⟩) := by
  refine ⟨?_, ?_, ?_, ?_, ?_⟩
  · intro cmd rsv atyp rest h
    simp [parse_request, h]
  · intro rsv a b c d p1 p2 r
    rfl
  · intro rsv p1 p2 name r cs h
    have hle : name.length ≤ (name ++ p1 :: p2 :: r).length := by
      simp [List.length_append]
    simp [parse_request, hle, List.take_left, List.drop_left, h]
  · intro rsv p1 p2 addr r h16
    have hle : 16 ≤ (addr ++ p1 :: p2 :: r).length := by
      simp [List.length_append, h16]
    simp only [parse_request, if_neg (by decide : ¬(5 : Nat) ≠ 5),
      if_neg (by decide : ¬(1 : Nat) ≠ 1), if_neg (by decide : ¬(4 : Nat) = 1),
      if_neg (by decide : ¬(4 : Nat) = 3), if_pos rfl, if_pos hle,
      List.take_left' h16, List.drop_left' h16]
    simp
  · intro rsv atyp rest h1 h3 h4
    simp [parse_request, h1, h3, h4]

/-- Witness for C2 at concrete requests of each shape. -/
theorem socks5_parse_request_correct_witness :
    parse_request [5, 2, 0, 1] = ⟨none, replyCmdUnsupported, []⟩ ∧
    parse_request [5, 1, 0, 1, 127, 0, 0, 1, 31, 144] =
      ⟨some ("127.0.0.1", 8080), [], []⟩ ∧
    parse_request [5, 1, 0, 3, 3, 97, 98, 99, 31, 144] =
      ⟨some ("abc", 8080), [], []⟩ ∧
    parse_request [5, 1, 0, 4, 32, 1, 13, 184, 0, 0, 0, 0, 0, 0, 0, 0, 0, 0, 0, 1, 0, 80] =
      ⟨some ("2001:0db8:0000:0000:0000:0000:0000:0001", 80), [], []⟩ ∧
    parse_request [5, 1, 0, 9] = ⟨none, replyAtypUnsupported, []⟩ := by
  refine ⟨?_, ?_, ?_, ?_, ?_⟩
  · exact socks5_parse_request_correct.1 2 0 1 [] (by decide)
  · exact (socks5_parse_request_correct.2.1 0 127 0 0 1 31 144 []).trans (by decide)
  · exact (socks5_parse_request_correct.2.2.1 0 31 144 [97, 98, 99] []
      ['a', 'b', 'c'] (by decide)).trans (by decide)
  · exact (socks5_parse_request_correct.2.2.2.1 0 0 80
      [32, 1, 13, 184, 0, 0, 0, 0, 0, 0, 0, 0, 0, 0, 0, 1] [] (by decide)).trans (by decide)
  · exact socks5_parse_request_correct.2.2.2.2 0 9 [] (by decide) (by decide) (by decide)

/-- Witness for C1 at concrete greetings. -/
theorem socks5_handshake_correct_witness :
    handshake [5, 1, 0x00, 9, 9] = ⟨true, [5, 0x00], [9, 9]⟩ ∧
    handshake [5, 2, 0x01, 0x02] = ⟨false, [5, 0xFF], []⟩ ∧
    handshake [4, 1, 0x00] = ⟨false, [], [0x00]⟩ := by
  refine ⟨?_, ?_, ?_⟩
  · exact socks5_handshake_correct.1 [0x00] [9, 9] (by decide)
  · exact socks5_handshake_correct.2.1 [0x01, 0x02] [] (by decide)
  · exact socks5_handshake_correct.2.2 4 1 [0x00] (by decide)

/-- A copy loop fed only data chunks writes their concatenation and then,
at EOF, closes the peer writer, raising nothing. -/
theorem forward_chunks (chunks : List (List Nat)) (h : ∀ c ∈ chunks, c ≠ []) :
    Relay.forward (chunks.map Relay.ReadEv.chunk) = ⟨chunks.flatten, true, false⟩ := by
  induction chunks with
  | nil => rfl
  | cons c cs ih =>
    cases c with
    | nil => exact absurd rfl (h [] (by simp))
    | cons x xs =>
      simp [Relay.forward, ih (fun d hd => h d (List.mem_cons_of_mem _ hd))]

/-- C4: for any two payloads however the streams chunk them (nonempty reads
of at most 8192 bytes), the relay delivers every byte of A's payload to B
verbatim and in order and every byte of B's payload to A verbatim and in
order, and each copy loop closes its peer's write side when its read side
reaches EOF, propagating nothing. -/
theorem relay_roundtrip :
    ∀ payloadA chunksA payloadB chunksB,
      Relay.ChunkedAs payloadA chunksA → Relay.ChunkedAs payloadB chunksB →
      Relay.relay_data (chunksA.map Relay.ReadEv.chunk) (chunksB.map Relay.ReadEv.chunk) =
        (⟨payloadA, true, false⟩, ⟨payloadB, true, false⟩) := by
  intro pa ca pb cb ha hb
  unfold Relay.relay_data
  rw [forward_chunks ca (fun c hc => (ha.2 c hc).1),
    forward_chunks cb (fun c hc => (hb.2 c hc).1), ha.1, hb.1]

/-- A nonempty replicate of at most 8192 bytes is a legal read chunk. -/
theorem replicate_chunk_ok (n : Nat) (hn : n ≠ 0) (hle : n ≤ 8192) :
    List.replicate n (7 : Nat) ≠ [] ∧ (List.replicate n (7 : Nat)).length ≤ 8192 := by
  constructor
  · intro h
    have hl := congrArg List.length h
    rw [List.length_replicate, List.length_nil] at hl
    exact hn hl
  · rw [List.length_replicate]
    exact hle

/-- Witness for C4: an empty payload one way and a 9000-byte (multi-chunk,
larger than 8 KiB) payload the other way. -/
theorem relay_roundtrip_witness :
    Relay.ChunkedAs [] [] ∧
    Relay.ChunkedAs (List.replicate 9000 7) [List.replicate 8192 7, List.replicate 808 7] ∧
    Relay.relay_data []
        ([List.replicate 8192 7, List.replicate 808 7].map Relay.ReadEv.chunk) =
      (⟨[], true, false⟩, ⟨List.replicate 9000 7, true, false⟩) := by
  have h1 : Relay.ChunkedAs [] ([] : List (List Nat)) := ⟨rfl, by simp⟩
  have h2 : Relay.ChunkedAs (List.replicate 9000 7)
      [List.replicate 8192 7, List.replicate 808 7] := by
    constructor
    · rw [List.flatten_cons, List.flatten_cons, List.flatten_nil, List.append_nil,
        ← List.replicate_add]
    · intro c hc
      simp only [List.mem_cons, List.not_mem_nil, or_false] at hc
      rcases hc with rfl | rfl
      · exact replicate_chunk_ok 8192 (by omega) (by omega)
      · exact replicate_chunk_ok 808 (by omega) (by omega)
  exact ⟨h1, h2, relay_roundtrip [] [] _ _ h1 h2⟩

/-- C9 counterexample: a cancellation delivered at the copy loop's first
read is swallowed by the bare `except:` — the loop returns normally with
nothing propagated, contradicting the claim that cancellation is
propagated outward rather than suppressed. -/
theorem relay_cancel_swallowed_counterexample :
    (Relay.forward [Relay.ReadEv.cancelled]).raised = false ∧
    Relay.forward [Relay.ReadEv.cancelled] = ⟨[], true, false⟩ :=
  ⟨rfl, rfl⟩

/-- C9 amended: each directional copy loop's bare `except:` swallows every
exception raised inside it — I/O errors and cancellation alike — so the
loop always returns normally with its peer writer closed; in particular a
cancellation delivered while the loop is suspended in a read or write is
suppressed, and the loop ends with a normal return, not cancellation. -/
theorem relay_loop_swallows_everything :
    (∀ evs, (Relay.forward evs).raised = false ∧ (Relay.forward evs).writerClosed = true) ∧
    (∀ evs, Relay.forward (Relay.ReadEv.cancelled :: evs) = ⟨[], true, false⟩) ∧
    (∀ evs, Relay.forward (Relay.ReadEv.ioError :: evs) = ⟨[], true, false⟩) := by
  refine ⟨?_, fun evs => rfl, fun evs => rfl⟩
  intro evs
  induction evs with
  | nil => exact ⟨rfl, rfl⟩
  | cons e t ih =>
    cases e with
    | chunk c =>
      cases c with
      | nil => exact ⟨rfl, rfl⟩
      | cons x xs => simpa [Relay.forward] using ih
    | cancelled => exact ⟨rfl, rfl⟩
    | ioError => exact ⟨rfl, rfl⟩

/-- C5: an unhandled failure of the run-loop is caught by
`_run_with_monitoring`: it is logged as an event, the instance ends not
running (the code's representation of the Failed/Stopped side of the
lifecycle), and no exception propagates out of the wrapper — so no
instance crash can escape to the registry, other instances, or the
process. -/
theorem proxy_failure_contained :
    ∀ s : ProxyBase.ProxyState, ∀ m : String,
      (ProxyBase.run_with_monitoring s (.failed m)).state.is_running = false ∧
      (ProxyBase.run_with_monitoring s (.failed m)).logs = ["Proxy task failed: " ++ m] ∧
      (∀ o, (ProxyBase.run_with_monitoring s o).propagated = false) := by
  intro s m
  refine ⟨rfl, rfl, ?_⟩
  intro o
  cases o <;> rfl

/-- C6: `start` on a running instance is a no-op leaving all state
unchanged; `stop` on a non-running instance is a no-op, so a second
consecutive `stop` does nothing; and `stop` of a running instance sets the
cancellation signal, cancels the run-loop task (awaiting it with
cancellation treated as a clean exit — `stop` is a total function, nothing
escapes), and leaves the instance stopped. -/
theorem proxy_lifecycle_idempotent :
    ∀ s : ProxyBase.ProxyState,
      (s.is_running = true → ProxyBase.start s = s) ∧
      (s.is_running = false → ProxyBase.stop s = s) ∧
      ProxyBase.stop (ProxyBase.stop s) = ProxyBase.stop s ∧
      (s.is_running = true →
        ProxyBase.stop s =
          ⟨false, true, s.task.map (fun _ => ProxyBase.TaskSt.cancelledDone)⟩) := by
  intro s
  obtain ⟨ir, se, tk⟩ := s
  cases ir <;> simp [ProxyBase.start, ProxyBase.stop]

/-- Witness for C6 at concrete instance states. -/
theorem proxy_lifecycle_idempotent_witness :
    ProxyBase.start ⟨true, false, some ProxyBase.TaskSt.running⟩ =
      ⟨true, false, some ProxyBase.TaskSt.running⟩ ∧
    ProxyBase.stop ⟨false, true, none⟩ = ⟨false, true, none⟩ ∧
    ProxyBase.stop (ProxyBase.stop ⟨true, false, some ProxyBase.TaskSt.running⟩) =
      ProxyBase.stop ⟨true, false, some ProxyBase.TaskSt.running⟩ ∧
    ProxyBase.stop ⟨true, false, some ProxyBase.TaskSt.running⟩ =
      ⟨false, true, some ProxyBase.TaskSt.cancelledDone⟩ := by
  refine ⟨(proxy_lifecycle_idempotent _).1 rfl, (proxy_lifecycle_idempotent _).2.1 rfl,
    (proxy_lifecycle_idempotent _).2.2.1,
    ((proxy_lifecycle_idempotent _).2.2.2 rfl).trans (by decide)⟩

/-- C7: the startup probe's stderr classification is the `if/elif`
substring cascade — auth when the text contains `Permission denied` or
`publickey`, else refused when it contains `Connection refused`, else
unreachable when it contains `No route to host` or `Connection timed out`,
else generic — and whenever the child process has exited the probe raises
immediately with the classified diagnostic. -/
theorem ssh_stderr_classified :
    (∀ m, (strContains m "Permission denied" || strContains m "publickey") = true →
      classifySshError m = .auth) ∧
    (∀ m, (strContains m "Permission denied" || strContains m "publickey") = false →
      strContains m "Connection refused" = true → classifySshError m = .refused) ∧
    (∀ m, (strContains m "Permission denied" || strContains m "publickey") = false →
      strContains m "Connection refused" = false →
      (strContains m "No route to host" || strContains m "Connection timed out") = true →
      classifySshError m = .unreachable) ∧
    (∀ m, (strContains m "Permission denied" || strContains m "publickey") = false →
      strContains m "Connection refused" = false →
      (strContains m "No route to host" || strContains m "Connection timed out") = false →
      classifySshError m = .generic) ∧
    (∀ m, probeTick true m =
      .error (classifySshError m, "SSH connection failed: " ++ m)) ∧
    (∀ m, probeTick false m = .ok ()) := by
  refine ⟨?_, ?_, ?_, ?_, fun m => rfl, fun m => rfl⟩
  · intro m h
    simp [classifySshError, h]
  · intro m h1 h2
    simp [classifySshError, h1, h2]
  · intro m h1 h2 h3
    simp [classifySshError, h1, h2, h3]
  · intro m h1 h2 h3
    simp [classifySshError, h1, h2, h3]

/-- Witness for C7 at concrete stderr texts of each class. -/
theorem ssh_stderr_classified_witness :
    classifySshError "user@host: Permission denied (publickey)." = .auth ∧
    classifySshError "ssh: connect to host 10.0.0.1 port 22: Connection refused" = .refused ∧
    classifySshError "ssh: connect to host 10.0.0.1 port 22: No route to host" = .unreachable ∧
    classifySshError "kex_exchange_identification: read: reset by peer" = .generic ∧
    probeTick true "Connection timed out" =
      Except.error (SshErrClass.unreachable, "SSH connection failed: Connection timed out") := by
  refine ⟨ssh_stderr_classified.1 _ (by decide),
    ssh_stderr_classified.2.1 _ (by decide) (by decide),
    ssh_stderr_classified.2.2.1 _ (by decide) (by decide) (by decide),
    ssh_stderr_classified.2.2.2.1 _ (by decide) (by decide) (by decide), ?_⟩
  have h := ssh_stderr_classified.2.2.2.2.1 "Connection timed out"
  rw [show classifySshError "Connection timed out" = SshErrClass.unreachable by decide] at h
  exact h

open Sproxy2.HttpProxy Sproxy2.ProxyRunnerService

/-- `splitAtLast` finds nothing when the separator does not occur. -/
theorem splitAtLast_eq_none (c : Char) : ∀ (l : List Char), c ∉ l → splitAtLast c l = none
  | [], _ => rfl
  | x :: xs, h => by
    have hx : ¬(x = c) := fun e => h (by simp [e])
    simp [splitAtLast, splitAtLast_eq_none c xs (fun hc => h (List.mem_cons_of_mem _ hc)), hx]

/-- `splitAtLast` splits at the last separator. -/
theorem splitAtLast_append (c : Char) : ∀ (l r : List Char), c ∉ r →
    splitAtLast c (l ++ c :: r) = some (l, r)
  | [], r, h => by
    simp [splitAtLast, splitAtLast_eq_none c r h]
  | x :: xs, r, h => by
    simp [splitAtLast, splitAtLast_append c xs r h]

/-- `splitAtFirst` finds nothing when the separator does not occur. -/
theorem splitAtFirst_eq_none (c : Char) : ∀ (l : List Char), c ∉ l → splitAtFirst c l = none
  | [], _ => rfl
  | x :: xs, h => by
    have hx : ¬(x = c) := fun e => h (by simp [e])
    simp [splitAtFirst, hx,
      splitAtFirst_eq_none c xs (fun hc => h (List.mem_cons_of_mem _ hc))]

/-- `splitAtFirst` splits at the first separator. -/
theorem splitAtFirst_append (c : Char) : ∀ (l r : List Char), c ∉ l →
    splitAtFirst c (l ++ c :: r) = some (l, r)
  | [], _, _ => by simp [splitAtFirst]
  | x :: xs, r, h => by
    have hx : ¬(x = c) := fun e => h (by simp [e])
    simp [splitAtFirst, hx,
      splitAtFirst_append c xs r (fun hc => h (List.mem_cons_of_mem _ hc))]

/-- C3: a CONNECT target is split as `host[:port]` with port 443 when no
colon is present; on upstream connect failure the handler sends exactly
`HTTP/1.1 502 Bad Gateway\r\n\r\n` and stops without relaying; on success
it sends exactly `HTTP/1.1 200 Connection Established\r\n\r\n` and hands
both streams to the relay. -/
theorem http_connect_correct :
    (∀ target host : String, ∀ port : Nat, ∀ ok : String → Nat → Bool,
      connectTarget target = some (host, port) →
      (ok host port = false →
        handle_connect target ok = ⟨strBytes "HTTP/1.1 502 Bad Gateway\r\n\r\n", false⟩) ∧
      (ok host port = true →
        handle_connect target ok =
          ⟨strBytes "HTTP/1.1 200 Connection Established\r\n\r\n", true⟩)) ∧
    (∀ t : String, ':' ∉ t.toList → connectTarget t = some (t, 443)) ∧
    (∀ h p : List Char, ':' ∉ p →
      connectTarget (String.mk (h ++ ':' :: p)) =
        (pyNat? p).map (fun port => (String.mk h, port))) := by
  refine ⟨?_, ?_, ?_⟩
  · intro target host port ok hp
    constructor
    · intro hok
      simp [handle_connect, hp, hok]
    · intro hok
      simp [handle_connect, hp, hok]
  · intro t h
    have hs : splitAtLast ':' t.data = none := splitAtLast_eq_none ':' t.toList h
    simp [connectTarget, hs]
  · intro h p hp
    have hs : splitAtLast ':' (String.mk (h ++ ':' :: p)).data = some (h, p) :=
      splitAtLast_append ':' h p hp
    simp [connectTarget, hs]

/-- Witness for C3 at concrete CONNECT targets. -/
theorem http_connect_correct_witness :
    handle_connect "example.com:8443" (fun _ _ => false) =
      ⟨strBytes "HTTP/1.1 502 Bad Gateway\r\n\r\n", false⟩ ∧
    connectTarget "example.com" = some ("example.com", 443) ∧
    handle_connect "example.com" (fun _ _ => true) =
      ⟨strBytes "HTTP/1.1 200 Connection Established\r\n\r\n", true⟩ := by
  have hnc : (':' : Char) ∉ "example.com".toList := by decide
  refine ⟨(http_connect_correct.1 "example.com:8443" "example.com" 8443 _ (by decide)).1 rfl,
    http_connect_correct.2.1 "example.com" hnc,
    (http_connect_correct.1 "example.com" "example.com" 443 _
      (http_connect_correct.2.1 "example.com" hnc)).2 rfl⟩

/-- C8 counterexample: for the concrete plain-HTTP request
`GET http://example.com/index` with the single client header
`Accept: text/html`, the bytes forwarded upstream contain a `Host:` header
the client never sent — the code synthesizes `Host: {host}` — so the
forwarded request is not exactly the re-serialized request line plus the
client's headers with only `Proxy-Connection` dropped. -/
theorem http_handle_http_counterexample :
    (handle_http "GET" "http://example.com/index" [("Accept", "text/html")]
        (fun _ _ => true) []).upstreamOut =
      strBytes "GET /index HTTP/1.1\r\nHost: example.com\r\nAccept: text/html\r\n\r\n" ∧
    (handle_http "GET" "http://example.com/index" [("Accept", "text/html")]
        (fun _ _ => true) []).upstreamOut ≠
      strBytes "GET /index HTTP/1.1\r\nAccept: text/html\r\n\r\n" := by
  constructor
  · decide
  · decide

/-- A list's own prefix test over `++` succeeds. -/
theorem isPrefixOf_append_self : ∀ (l t : List Char), l.isPrefixOf (l ++ t) = true
  | [], _ => by simp [List.isPrefixOf]
  | x :: xs, t => by
    simp [List.isPrefixOf, isPrefixOf_append_self xs t]

/-- The response pump fed nonempty chunks writes their concatenation. -/
theorem pumpChunks_flatten : ∀ (chunks : List (List Nat)),
    (∀ c ∈ chunks, c ≠ []) → pumpChunks chunks = chunks.flatten
  | [], _ => rfl
  | c :: cs, h => by
    have hc : c ≠ [] := h c (by simp)
    simp [pumpChunks, hc,
      pumpChunks_flatten cs (fun d hd => h d (List.mem_cons_of_mem _ hd))]

/-- C8 amended: for a non-CONNECT request whose target is an absolute
`http://` URL, the handler strips the scheme and splits `host[:port]`
(port 80 when absent) from the path (default `/`); on successful upstream
connect it forwards exactly the re-serialized request line, then a `Host:`
header it synthesizes from the parsed host, then the client's collected
headers with only the `Proxy-Connection` header (matched
case-insensitively) dropped, then a blank line; it then streams the
upstream's response back to the client verbatim until EOF and closes the
upstream side. -/
theorem http_handle_http_amended :
    (∀ method target : String, ∀ headers : List (String × String),
      ∀ ok : String → Nat → Bool, ∀ resp : List (List Nat),
      ∀ host path : String, ∀ port : Nat,
      parseHttpTarget target = some (host, port, path) → ok host port = true →
      handle_http method target headers ok resp =
        ⟨strBytes (serializeHttpRequest method path host headers),
         pumpChunks resp, true⟩) ∧
    (∀ hp p0 : List Char, '/' ∉ hp → ':' ∉ hp →
      parseHttpTarget (String.mk ("http://".toList ++ (hp ++ '/' :: p0))) =
        some (String.mk hp, 80, String.mk ('/' :: p0))) ∧
    (∀ hp : List Char, '/' ∉ hp → ':' ∉ hp →
      parseHttpTarget (String.mk ("http://".toList ++ hp)) =
        some (String.mk hp, 80, String.mk ['/'])) ∧
    (∀ h d p0 : List Char, '/' ∉ h → ':' ∉ d → '/' ∉ d →
      parseHttpTarget (String.mk ("http://".toList ++ ((h ++ ':' :: d) ++ '/' :: p0))) =
        (pyNat? d).map (fun port => (String.mk h, port, String.mk ('/' :: p0)))) ∧
    (∀ payload : List Nat, ∀ chunks : List (List Nat),
      Relay.ChunkedAs payload chunks → pumpChunks chunks = payload) := by
  refine ⟨?_, ?_, ?_, ?_, ?_⟩
  · intro method target headers ok resp host path port hpt hok
    simp [handle_http, hpt, hok]
  · intro hp p0 h1 h2
    have hpre : "http://".toList.isPrefixOf
        ((String.mk ("http://".toList ++ (hp ++ '/' :: p0))).toList) = true :=
      isPrefixOf_append_self _ _
    have hdrop : ((String.mk ("http://".toList ++ (hp ++ '/' :: p0))).toList).drop 7 =
        hp ++ '/' :: p0 := List.drop_left' (by rfl)
    have hsf : splitAtFirst '/' (hp ++ '/' :: p0) = some (hp, p0) :=
      splitAtFirst_append '/' hp p0 h1
    have hsl : splitAtLast ':' hp = none := splitAtLast_eq_none ':' hp h2
    simp [parseHttpTarget, hpre, hdrop, hsf, hsl]
  · intro hp h1 h2
    have hpre : "http://".toList.isPrefixOf
        ((String.mk ("http://".toList ++ hp)).toList) = true :=
      isPrefixOf_append_self _ _
    have hdrop : ((String.mk ("http://".toList ++ hp)).toList).drop 7 = hp :=
      List.drop_left' (by rfl)
    have hsf : splitAtFirst '/' hp = none := splitAtFirst_eq_none '/' hp h1
    have hsl : splitAtLast ':' hp = none := splitAtLast_eq_none ':' hp h2
    simp [parseHttpTarget, hpre, hdrop, hsf, hsl]
  · intro h d p0 h1 h2 h3
    have hnf : '/' ∉ h ++ ':' :: d := by
      intro hm
      rcases List.mem_append.1 hm with hm | hm
      · exact h1 hm
      · rcases List.mem_cons.1 hm with hm | hm
        · exact absurd hm (by decide)
        · exact h3 hm
    have hpre : "http://".toList.isPrefixOf
        ((String.mk ("http://".toList ++ ((h ++ ':' :: d) ++ '/' :: p0))).toList) = true :=
      isPrefixOf_append_self _ _
    have hdrop : ((String.mk ("http://".toList ++ ((h ++ ':' :: d) ++ '/' :: p0))).toList).drop 7 =
        (h ++ ':' :: d) ++ '/' :: p0 := List.drop_left' (by rfl)
    have hsf : splitAtFirst '/' (h ++ ':' :: (d ++ '/' :: p0)) = some (h ++ ':' :: d, p0) := by
      have hassoc : (h ++ ':' :: d) ++ '/' :: p0 = h ++ ':' :: (d ++ '/' :: p0) := by simp
      rw [← hassoc]
      exact splitAtFirst_append '/' (h ++ ':' :: d) p0 hnf
    have hsl : splitAtLast ':' (h ++ ':' :: d) = some (h, d) := splitAtLast_append ':' h d h2
    simp [parseHttpTarget, hpre, hdrop, hsf, hsl]
  · intro payload chunks hch
    rw [pumpChunks_flatten chunks (fun c hc => (hch.2 c hc).1), hch.1]

/-- Witness for C8's amended claim at a concrete request: absolute URL with
an explicit port, a `Proxy-Connection` header that is dropped, an `Accept`
header that is kept, the synthesized `Host:` line, and a relayed response
chunk. -/
theorem http_handle_http_amended_witness :
    parseHttpTarget (String.mk ("http://".toList ++
        (("example.com".toList ++ ':' :: "8080".toList) ++ '/' :: "a".toList))) =
      some ("example.com", 8080, "/a") ∧
    handle_http "GET" "http://example.com:8080/a"
        [("Proxy-Connection", "keep-alive"), ("Accept", "*")] (fun _ _ => true) [[72, 105]] =
      ⟨strBytes "GET /a HTTP/1.1\r\nHost: example.com\r\nAccept: *\r\n\r\n", [72, 105], true⟩ ∧
    pumpChunks [[72, 105]] = [72, 105] := by
  refine ⟨(http_handle_http_amended.2.2.2.1 "example.com".toList "8080".toList "a".toList
      (by decide) (by decide) (by decide)).trans (by decide),
    (http_handle_http_amended.1 "GET" "http://example.com:8080/a"
      [("Proxy-Connection", "keep-alive"), ("Accept", "*")] (fun _ _ => true) [[72, 105]]
      "example.com" "/a" 8080 (by decide) rfl).trans (by decide),
    http_handle_http_amended.2.2.2.2 [72, 105] [[72, 105]] ⟨by decide, by decide⟩⟩

/-- Clearing the `is_running` flag of entries keyed `m` (what an instance
failure does) never changes whether a key `n` is present. -/
theorem any_key_map (n m : String) : ∀ (l : List (String × Bool)),
    (l.map (fun e => if e.1 = m then (e.1, false) else e)).any (fun e => decide (e.1 = n)) =
      l.any (fun e => decide (e.1 = n)) := by
  intro l
  induction l with
  | nil => rfl
  | cons e t ih =>
    simp only [List.map_cons, List.any_cons, ih]
    by_cases he : e.1 = m
    · simp [he]
    · simp [he]

/-- After filtering out key `n`, no entry keyed `n` remains. -/
theorem any_key_filter_self (n : String) : ∀ (l : List (String × Bool)),
    (l.filter (fun e => decide (e.1 ≠ n))).any (fun e => decide (e.1 = n)) = false := by
  intro l
  induction l with
  | nil => rfl
  | cons e t ih =>
    by_cases he : e.1 = n
    · simp [List.filter_cons, he, ih]
    · simp [List.filter_cons, he, ih]

/-- Filtering out a different key `m` does not change whether `n` is
present. -/
theorem any_key_filter_other (n m : String) (hnm : n ≠ m) : ∀ (l : List (String × Bool)),
    (l.filter (fun e => decide (e.1 ≠ m))).any (fun e => decide (e.1 = n)) =
      l.any (fun e => decide (e.1 = n)) := by
  intro l
  induction l with
  | nil => rfl
  | cons e t ih =>
    by_cases hem : e.1 = m
    · have h2 : decide (e.1 = n) = false := by
        simp only [decide_eq_false_iff_not]
        intro h
        exact hnm (h.symm.trans hem)
      rw [List.filter_cons_of_neg, List.any_cons, h2, Bool.false_or, ih]
      simp [hem]
    · rw [List.filter_cons_of_pos, List.any_cons, List.any_cons, ih]
      simp [hem]

/-- Appending a fresh entry keyed `n` makes `n` present. -/
theorem any_key_append_self (n : String) (l : List (String × Bool)) :
    (l ++ [(n, true)]).any (fun e => decide (e.1 = n)) = true := by
  simp [List.any_append]

/-- Any event other than deleting `n` itself preserves `n`'s membership. -/
theorem applyEvent_preserves (r : Registry) (n : String) (e : RegEvent)
    (hm : is_proxy_running r n = true) (hne : e ≠ RegEvent.stopP n) :
    is_proxy_running (applyEvent r e) n = true := by
  cases e with
  | startP m ok =>
    by_cases hc : containsName r m = true
    · have hval : applyEvent r (.startP m ok) = r := by
        show (start_proxy r m ok).1 = r
        unfold start_proxy
        rw [if_pos hc]
      rw [hval]
      exact hm
    · cases ok with
      | false =>
        have hval : applyEvent r (.startP m false) = r := by
          show (start_proxy r m false).1 = r
          unfold start_proxy
          rw [if_neg hc]
          rfl
        rw [hval]
        exact hm
      | true =>
        have hval : applyEvent r (.startP m true) = ⟨r.entries ++ [(m, true)]⟩ := by
          show (start_proxy r m true).1 = _
          unfold start_proxy
          rw [if_neg hc]
          rfl
        rw [hval]
        show (r.entries ++ [(m, true)]).any (fun e => decide (e.1 = n)) = true
        rw [List.any_append]
        have hm' : r.entries.any (fun e => decide (e.1 = n)) = true := hm
        rw [hm']
        rfl
  | stopP m =>
    have hnm : n ≠ m := fun heq => hne (by rw [heq])
    show (r.entries.filter (fun e => decide (e.1 ≠ m))).any (fun e => decide (e.1 = n)) = true
    rw [any_key_filter_other n m hnm r.entries]
    exact hm
  | instExit m =>
    show (r.entries.map (fun e => if e.1 = m then (e.1, false) else e)).any
        (fun e => decide (e.1 = n)) = true
    rw [any_key_map n m r.entries]
    exact hm

/-- C10: `is_proxy_running` reflects only membership in the registry map:
a `start_proxy` call that returns without raising leaves the name a member
(and, when it actually starts one, the map insert precedes the scheduling
of the run-loop); an instance's own failure/exit changes no membership
answer; `stop_proxy` removes the name; and membership survives any event
sequence containing no `stop_proxy` of that name — in particular it stays
`true` after the instance's run-loop has failed, until `stop_proxy`. -/
theorem registry_membership :
    (∀ r : Registry, ∀ name : String, ∀ ok : Bool,
      (start_proxy r name ok).2.2 = false →
      is_proxy_running (start_proxy r name ok).1 name = true) ∧
    (∀ r : Registry, ∀ name : String, containsName r name = false →
      (start_proxy r name true).2.1 = [Action.insert name, Action.schedule name]) ∧
    (∀ r : Registry, ∀ n m : String,
      is_proxy_running (inst_exit r m) n = is_proxy_running r n) ∧
    (∀ r : Registry, ∀ n : String, is_proxy_running (stop_proxy r n) n = false) ∧
    (∀ r : Registry, ∀ n : String, ∀ evs : List RegEvent,
      is_proxy_running r n = true → (∀ e ∈ evs, e ≠ RegEvent.stopP n) →
      is_proxy_running (runEvents r evs) n = true) := by
  refine ⟨?_, ?_, ?_, ?_, ?_⟩
  · intro r name ok h
    by_cases hc : containsName r name = true
    · have hval : (start_proxy r name ok).1 = r := by
        unfold start_proxy
        rw [if_pos hc]
      rw [hval]
      exact hc
    · cases ok with
      | false =>
        have hval : (start_proxy r name false).2.2 = true := by
          unfold start_proxy
          rw [if_neg hc]
          rfl
        rw [hval] at h
        exact absurd h (by decide)
      | true =>
        have hval : (start_proxy r name true).1 = ⟨r.entries ++ [(name, true)]⟩ := by
          unfold start_proxy
          rw [if_neg hc]
          rfl
        rw [hval]
        exact any_key_append_self name r.entries
  · intro r name hc
    have hc' : ¬(containsName r name = true) := by
      rw [hc]
      exact Bool.false_ne_true
    unfold start_proxy
    rw [if_neg hc']
    rfl
  · intro r n m
    show (r.entries.map (fun e => if e.1 = m then (e.1, false) else e)).any
        (fun e => decide (e.1 = n)) = r.entries.any (fun e => decide (e.1 = n))
    exact any_key_map n m r.entries
  · intro r n
    exact any_key_filter_self n r.entries
  · intro r n evs
    induction evs generalizing r with
    | nil => intro hm _; exact hm
    | cons e t ih =>
      intro hm hne
      exact ih (applyEvent r e)
        (applyEvent_preserves r n e hm (hne e (by simp)))
        (fun x hx => hne x (List.mem_cons_of_mem _ hx))

/-- Witness for C10: start a proxy in an empty registry, then observe
membership across its own failure, an unrelated start and an unrelated
stop, and finally remove it. -/
theorem registry_membership_witness :
    is_proxy_running (start_proxy ⟨[]⟩ "a" true).1 "a" = true ∧
    (start_proxy ⟨[]⟩ "a" true).2.1 = [Action.insert "a", Action.schedule "a"] ∧
    is_proxy_running (runEvents (start_proxy ⟨[]⟩ "a" true).1
        [RegEvent.instExit "a", RegEvent.startP "b" true, RegEvent.stopP "b"]) "a" = true ∧
    is_proxy_running (stop_proxy (start_proxy ⟨[]⟩ "a" true).1 "a") "a" = false := by
  refine ⟨registry_membership.1 ⟨[]⟩ "a" true (by decide),
    registry_membership.2.1 ⟨[]⟩ "a" (by decide),
    registry_membership.2.2.2.2 (start_proxy ⟨[]⟩ "a" true).1 "a"
      [RegEvent.instExit "a", RegEvent.startP "b" true, RegEvent.stopP "b"]
      (registry_membership.1 ⟨[]⟩ "a" true (by decide)) (by decide),
    registry_membership.2.2.2.1 (start_proxy ⟨[]⟩ "a" true).1 "a"⟩
